import Mathlib

/-!
Shallow embedding of `src/interactive_map_google_sheets.py`, a batch pipeline
that geocodes (street, house) address rows with a persistent cache, validates
coordinates against a distance bound from a configured center, prepares and
filters tabular rows, and hands resolved rows to a map renderer.

Modelling conventions:
* Python dicts holding the geocode cache become association lists
  (`Cache`), with Python's `key in d` / `d[key]` / `d[key] = v` embedded as
  `dictGet` / `dictSet` (assignment replaces an existing binding or appends).
* The external geocoder (`geopy` via `RateLimiter`) is a parameter
  `geocode_fn : String → Option Coord`; `None` covers both "no match" and a
  swallowed transient error (RateLimiter returns None on error/timeout).
* `geodesic(CENTER, ·).km` from geopy is external; it is a parameter
  `dist_km : Coord → ℚ` (the great-circle distance from CENTER).
* The external call effect of `geocode_fn` is made observable: `smart_geocode`
  also returns the list of addresses it passed to the geocoder (empty on a
  cache hit, a singleton on a miss), exactly mirroring the source's control
  flow.
* pandas DataFrames become lists of rows whose cells are dynamically typed
  `Value`s, mirroring pandas' per-column dtype coercions; a raised pandas
  exception is embedded as `Option.none` for the whole operation.
-/

namespace ZvksHeatmap

/-- Dynamically typed cell of a DataFrame: a string, an integer, a parsed
timestamp (seconds), or a missing value (NaN / NaT / None). -/
inductive Value where
  | vStr (s : String)
  | vInt (n : Int)
  | vTime (t : Int)
  | vNone
  deriving DecidableEq, Repr

/-- A coordinate pair (latitude, longitude); floats are modelled as rationals. -/
abbrev Coord := ℚ × ℚ

/-- MAX_DIST_KM = 10 from the source configuration. -/
def MAX_DIST_KM : ℚ := 10

/-- The geocode cache: a Python dict from key strings to either a resolved
coordinate (`some c`) or the explicit unresolved marker `None` (`none`). -/
abbrev Cache := List (String × Option Coord)

/-- Python `key in cache` / `cache[key]`: first binding of `k`, if any. -/
def dictGet : Cache → String → Option (Option Coord)
  | [], _ => none
  | (k0, v0) :: rest, k => if k0 = k then some v0 else dictGet rest k

/-- Python `cache[key] = v`: replace an existing binding or append a new one. -/
def dictSet : Cache → String → Option Coord → Cache
  | [], k, v => [(k, v)]
  | (k0, v0) :: rest, k, v =>
      if k0 = k then (k, v) :: rest else (k0, v0) :: dictSet rest k v

/-- The cache key built at line 84: `f"{street}_{house}"`. -/
def mkKey (street house : String) : String := street ++ "_" ++ house

/-- The query address built at line 88 of the source. -/
def mkAddress (street house : String) : String :=
  street ++ ", " ++ house ++ ", Зеленодольск, Республика Татарстан, Россия"

/-- Result of one `smart_geocode` call: the returned value, the cache after
the call, and the addresses passed to the external geocoder during the call. -/
structure GeoOut where
  res : Option Coord
  cache : Cache
  calls : List String
  deriving DecidableEq, Repr

/-- Embedding of `smart_geocode` (source lines 83–94): on a cache hit return
the cached value; on a miss call the geocoder, keep the coordinate only if it
is within `MAX_DIST_KM` of CENTER, otherwise store the `None` marker; either
way write the key and return the stored value. -/
def smart_geocode (street house : String) (geocode_fn : String → Option Coord)
    (dist_km : Coord → ℚ) (cache : Cache) : GeoOut :=
  let key := mkKey street house
  match dictGet cache key with
  | some v => ⟨v, cache, []⟩
  | none =>
    let address := mkAddress street house
    match geocode_fn address with
    | some c =>
        if dist_km c ≤ MAX_DIST_KM then
          ⟨some c, dictSet cache key (some c), [address]⟩
        else
          ⟨none, dictSet cache key none, [address]⟩
    | none => ⟨none, dictSet cache key none, [address]⟩

/-- Embedding of the geocoding loop in `generate_map` (line 164): apply
`smart_geocode` to each row's (street, house) pair, threading the cache, and
record per row the result and the external calls it triggered. -/
def geocodeRows (geocode_fn : String → Option Coord) (dist_km : Coord → ℚ) :
    List (String × String) → Cache → List (Option Coord × List String) × Cache
  | [], cache => ([], cache)
  | (s, h) :: rest, cache =>
      let out := smart_geocode s h geocode_fn dist_km cache
      let tail := geocodeRows geocode_fn dist_km rest out.cache
      ((out.res, out.calls) :: tail.1, tail.2)

/-- Rows surviving `df.dropna(subset=["lat","lon"])` (line 169): the rows,
paired with their geocoding results, whose coordinate is present.  These are
exactly the records that can reach the renderer (`filter_df` and `build_map`
only select among them). -/
def renderedRecords (rows : List (String × String))
    (outs : List (Option Coord × List String)) : List ((String × String) × Coord) :=
  (rows.zip outs).filterMap (fun p => (p.2.1).map (fun c => (p.1, c)))

/-- Number of external geocoder calls attributable to rows with cache key `k`
in a zipped (row, output) list. -/
def callsForKey (k : String) :
    List ((String × String) × (Option Coord × List String)) → Nat
  | [] => 0
  | (r, o) :: rest =>
      (if mkKey r.1 r.2 = k then o.2.length else 0) + callsForKey k rest

@[simp] theorem dictGet_nil (k : String) : dictGet [] k = none := rfl

theorem dictGet_dictSet_self (c : Cache) (k : String) (v : Option Coord) :
    dictGet (dictSet c k v) k = some v := by
  induction c with
  | nil => simp [dictSet, dictGet]
  | cons hd tl ih =>
      by_cases h : hd.1 = k
      · simp [dictSet, dictGet, h]
      · simp [dictSet, dictGet, h, ih]

theorem dictGet_dictSet_ne (c : Cache) (k k0 : String) (v : Option Coord)
    (h : k0 ≠ k) : dictGet (dictSet c k0 v) k = dictGet c k := by
  induction c with
  | nil => simp [dictSet, dictGet, h]
  | cons hd tl ih =>
      by_cases h0 : hd.1 = k0
      · simp [dictSet, dictGet, h0, h]
      · by_cases h1 : hd.1 = k <;>
          simp [dictSet, dictGet, h0, h1, Ne.symm h, ih]

theorem smart_geocode_hit (s h : String) (g : String → Option Coord)
    (d : Coord → ℚ) (cache : Cache) (v : Option Coord)
    (hv : dictGet cache (mkKey s h) = some v) :
    smart_geocode s h g d cache = ⟨v, cache, []⟩ := by
  simp [smart_geocode, hv]

theorem smart_geocode_key_get (s h : String) (g : String → Option Coord)
    (d : Coord → ℚ) (cache : Cache) :
    dictGet (smart_geocode s h g d cache).cache (mkKey s h) =
      some (smart_geocode s h g d cache).res := by
  rcases hv : dictGet cache (mkKey s h) with _ | v
  · rcases hg : g (mkAddress s h) with _ | c
    · simp [smart_geocode, hv, hg, dictGet_dictSet_self]
    · by_cases hd : d c ≤ MAX_DIST_KM <;>
        simp [smart_geocode, hv, hg, hd, dictGet_dictSet_self]
  · simp [smart_geocode, hv]

theorem smart_geocode_preserve (s h : String) (g : String → Option Coord)
    (d : Coord → ℚ) (cache : Cache) (k : String) (v : Option Coord)
    (hv : dictGet cache k = some v) :
    dictGet (smart_geocode s h g d cache).cache k = some v := by
  by_cases hk : mkKey s h = k
  · subst hk
    simp [smart_geocode, hv]
  · rcases hv0 : dictGet cache (mkKey s h) with _ | v0
    · rcases hg : g (mkAddress s h) with _ | c
      · simpa [smart_geocode, hv0, hg, dictGet_dictSet_ne _ _ _ _ hk] using hv
      · by_cases hd : d c ≤ MAX_DIST_KM <;>
          simpa [smart_geocode, hv0, hg, hd, dictGet_dictSet_ne _ _ _ _ hk]
            using hv
    · simpa [smart_geocode, hv0] using hv

theorem smart_geocode_other (s h : String) (g : String → Option Coord)
    (d : Coord → ℚ) (cache : Cache) (k : String) (hk : mkKey s h ≠ k) :
    dictGet (smart_geocode s h g d cache).cache k = dictGet cache k := by
  rcases hv0 : dictGet cache (mkKey s h) with _ | v0
  · rcases hg : g (mkAddress s h) with _ | c
    · simp [smart_geocode, hv0, hg, dictGet_dictSet_ne _ _ _ _ hk]
    · by_cases hd : d c ≤ MAX_DIST_KM <;>
        simp [smart_geocode, hv0, hg, hd, dictGet_dictSet_ne _ _ _ _ hk]
  · simp [smart_geocode, hv0]

theorem smart_geocode_miss_calls (s h : String) (g : String → Option Coord)
    (d : Coord → ℚ) (cache : Cache)
    (hv : dictGet cache (mkKey s h) = none) :
    (smart_geocode s h g d cache).calls = [mkAddress s h] := by
  rcases hg : g (mkAddress s h) with _ | c
  · simp [smart_geocode, hv, hg]
  · by_cases hd : d c ≤ MAX_DIST_KM <;> simp [smart_geocode, hv, hg, hd]

theorem geocodeRows_cons_fst (g : String → Option Coord) (d : Coord → ℚ)
    (s h : String) (tl : List (String × String)) (cache : Cache) :
    (geocodeRows g d ((s, h) :: tl) cache).1 =
      ((smart_geocode s h g d cache).res, (smart_geocode s h g d cache).calls)
        :: (geocodeRows g d tl (smart_geocode s h g d cache).cache).1 := rfl

theorem callsForKey_cons (k : String) (r : String × String)
    (o : Option Coord × List String)
    (rest : List ((String × String) × (Option Coord × List String))) :
    callsForKey k ((r, o) :: rest) =
      (if mkKey r.1 r.2 = k then o.2.length else 0) + callsForKey k rest := rfl

/-- Master invariant for the geocoding fold: for a fixed key `k`, if the cache
already binds `k` to `v` then rows with key `k` trigger no external call and
all receive `v`; if `k` is unbound, rows with key `k` trigger at most one
external call and all receive one common value. -/
theorem geocodeRows_key_invariant (g : String → Option Coord)
    (d : Coord → ℚ) (k : String) :
    ∀ (rows : List (String × String)) (cache : Cache),
      (∀ v, dictGet cache k = some v →
        callsForKey k (rows.zip (geocodeRows g d rows cache).1) = 0 ∧
        ∀ p ∈ rows.zip (geocodeRows g d rows cache).1,
          mkKey p.1.1 p.1.2 = k → p.2.1 = v) ∧
      (dictGet cache k = none →
        callsForKey k (rows.zip (geocodeRows g d rows cache).1) ≤ 1 ∧
        ∃ v, ∀ p ∈ rows.zip (geocodeRows g d rows cache).1,
          mkKey p.1.1 p.1.2 = k → p.2.1 = v) := by
  intro rows
  induction rows with
  | nil =>
      intro cache
      exact ⟨fun v _ => ⟨rfl, by simp⟩,
        fun _ => ⟨by simp [callsForKey], none, by simp⟩⟩
  | cons hd tl ih =>
      obtain ⟨s, h⟩ := hd
      intro cache
      constructor
      · intro v hv
        by_cases hk : mkKey s h = k
        · have hv0 : dictGet cache (mkKey s h) = some v := by rw [hk]; exact hv
          have hhit : smart_geocode s h g d cache = ⟨v, cache, []⟩ :=
            smart_geocode_hit _ _ _ _ _ _ hv0
          have htl := (ih cache).1 v hv
          rw [geocodeRows_cons_fst, hhit, List.zip_cons_cons, callsForKey_cons]
          constructor
          · simpa using htl.1
          · intro p hp hkey
            rcases List.mem_cons.mp hp with hp | hp
            · simp [hp]
            · exact htl.2 p hp hkey
        · have hpres : dictGet (smart_geocode s h g d cache).cache k = some v :=
            smart_geocode_preserve _ _ _ _ _ _ _ hv
          have htl := (ih _).1 v hpres
          rw [geocodeRows_cons_fst, List.zip_cons_cons, callsForKey_cons]
          constructor
          · simpa [hk] using htl.1
          · intro p hp hkey
            rcases List.mem_cons.mp hp with hp | hp
            · exact absurd (by rw [hp] at hkey; exact hkey) hk
            · exact htl.2 p hp hkey
      · intro hv
        by_cases hk : mkKey s h = k
        · have hmiss : dictGet cache (mkKey s h) = none := by rw [hk]; exact hv
          have hcalls : (smart_geocode s h g d cache).calls = [mkAddress s h] :=
            smart_geocode_miss_calls _ _ _ _ _ hmiss
          have hget : dictGet (smart_geocode s h g d cache).cache k =
              some (smart_geocode s h g d cache).res := by
            rw [← hk]; exact smart_geocode_key_get _ _ _ _ _
          have htl := (ih _).1 _ hget
          rw [geocodeRows_cons_fst, List.zip_cons_cons, callsForKey_cons]
          constructor
          · simp [hk, hcalls, htl.1]
          · refine ⟨(smart_geocode s h g d cache).res, ?_⟩
            intro p hp hkey
            rcases List.mem_cons.mp hp with hp | hp
            · simp [hp]
            · exact htl.2 p hp hkey
        · have hunb : dictGet (smart_geocode s h g d cache).cache k = none := by
            rw [smart_geocode_other _ _ _ _ _ _ hk]; exact hv
          have htl := (ih _).2 hunb
          rw [geocodeRows_cons_fst, List.zip_cons_cons, callsForKey_cons]
          constructor
          · simpa [hk] using htl.1
          · obtain ⟨v, hvall⟩ := htl.2
            refine ⟨v, ?_⟩
            intro p hp hkey
            rcases List.mem_cons.mp hp with hp | hp
            · exact absurd (by rw [hp] at hkey; exact hkey) hk
            · exact hvall p hp hkey

/-- Validity of a cache with respect to the distance bound: every key bound to
a resolved coordinate is within `MAX_DIST_KM` of the center.  This is the
invariant `smart_geocode` maintains; caches produced by the program (starting
from the empty one) always satisfy it. -/
def cacheOK (d : Coord → ℚ) (cache : Cache) : Prop :=
  ∀ k c, dictGet cache k = some (some c) → d c ≤ MAX_DIST_KM

theorem cacheOK_nil (d : Coord → ℚ) : cacheOK d [] := by
  intro k c hc
  simp [dictGet] at hc

theorem smart_geocode_res_ok (s h : String) (g : String → Option Coord)
    (d : Coord → ℚ) (cache : Cache) (hOK : cacheOK d cache) (c : Coord)
    (hres : (smart_geocode s h g d cache).res = some c) : d c ≤ MAX_DIST_KM := by
  rcases hv : dictGet cache (mkKey s h) with _ | v
  · rcases hg : g (mkAddress s h) with _ | c0
    · simp [smart_geocode, hv, hg] at hres
    · by_cases hd : d c0 ≤ MAX_DIST_KM
      · simp only [smart_geocode, hv, hg, hd, if_true] at hres
        cases hres
        exact hd
      · simp [smart_geocode, hv, hg, hd] at hres
  · simp only [smart_geocode, hv] at hres
    exact hOK (mkKey s h) c (by rw [hv, hres])

theorem smart_geocode_cache_ok (s h : String) (g : String → Option Coord)
    (d : Coord → ℚ) (cache : Cache) (hOK : cacheOK d cache) :
    cacheOK d (smart_geocode s h g d cache).cache := by
  intro k c hc
  rcases hv : dictGet cache (mkKey s h) with _ | v
  · by_cases hk : mkKey s h = k
    · subst hk
      rw [smart_geocode_key_get] at hc
      exact smart_geocode_res_ok s h g d cache hOK c (Option.some.inj hc)
    · rw [smart_geocode_other _ _ _ _ _ _ hk] at hc
      exact hOK k c hc
  · rw [smart_geocode_hit _ _ _ _ _ _ hv] at hc
    exact hOK k c hc

theorem geocodeRows_cache_ok (g : String → Option Coord) (d : Coord → ℚ) :
    ∀ (rows : List (String × String)) (cache : Cache), cacheOK d cache →
      cacheOK d (geocodeRows g d rows cache).2 ∧
      ∀ p ∈ renderedRecords rows (geocodeRows g d rows cache).1,
        d p.2 ≤ MAX_DIST_KM := by
  intro rows
  induction rows with
  | nil =>
      intro cache hOK
      exact ⟨hOK, by simp [renderedRecords]⟩
  | cons hd tl ih =>
      obtain ⟨s, h⟩ := hd
      intro cache hOK
      have hOK1 : cacheOK d (smart_geocode s h g d cache).cache :=
        smart_geocode_cache_ok s h g d cache hOK
      have htl := ih (smart_geocode s h g d cache).cache hOK1
      refine ⟨htl.1, ?_⟩
      intro p hp
      rw [geocodeRows_cons_fst] at hp
      rcases hres : (smart_geocode s h g d cache).res with _ | c
      · rw [renderedRecords, List.zip_cons_cons, List.filterMap_cons,
          hres] at hp
        exact htl.2 p hp
      · rw [renderedRecords, List.zip_cons_cons, List.filterMap_cons,
          hres] at hp
        rcases List.mem_cons.mp hp with hp | hp
        · rw [hp]
          exact smart_geocode_res_ok s h g d cache hOK c hres
        · exact htl.2 p hp

/-- C1: the claim says a transient geocoder failure (the lookup returns no
result for a reason other than a failed distance check) writes no cache
entry, so a later run retries.  In the source (lines 89–94) `loc = None`
— which is what a timeout/error produces through `RateLimiter` — takes the
`else` branch and writes `cache[key] = None`; a later call finds the key and
returns the cached `None` without calling the geocoder again.  Concretely:
with a geocoder returning no result, `smart_geocode` leaves an entry for the
key, and a second call — even with a geocoder that would now succeed — makes
no external call. -/
theorem C1_transient_failure_writes_cache :
    dictGet (smart_geocode "A" "1" (fun _ => none) (fun _ => 0) []).cache
      (mkKey "A" "1") = some none ∧
    (smart_geocode "A" "1" (fun _ => some (0, 0)) (fun _ => 0)
      (smart_geocode "A" "1" (fun _ => none) (fun _ => 0) []).cache).calls
      = [] ∧
    (smart_geocode "A" "1" (fun _ => some (0, 0)) (fun _ => 0)
      (smart_geocode "A" "1" (fun _ => none) (fun _ => 0) []).cache).res
      = none := by
  decide

/-- C1 (amended): when the geocoder returns no result for an uncached key —
which covers a transient failure — `smart_geocode` writes the unresolved
marker `None` into the cache for that key and returns `None`; any later call
for the same key is a cache hit that performs no external call and returns
the cached `None`, so the failure is never retried. -/
theorem C1_amended_transient_cached_no_retry (s h : String)
    (d : Coord → ℚ) (cache : Cache)
    (hmiss : dictGet cache (mkKey s h) = none) :
    dictGet (smart_geocode s h (fun _ => none) d cache).cache (mkKey s h)
      = some none ∧
    (smart_geocode s h (fun _ => none) d cache).res = none ∧
    ∀ g2 : String → Option Coord,
      (smart_geocode s h g2 d
        (smart_geocode s h (fun _ => none) d cache).cache).calls = [] ∧
      (smart_geocode s h g2 d
        (smart_geocode s h (fun _ => none) d cache).cache).res = none := by
  have h1 : smart_geocode s h (fun _ => none) d cache =
      ⟨none, dictSet cache (mkKey s h) none, [mkAddress s h]⟩ := by
    simp [smart_geocode, hmiss]
  refine ⟨?_, ?_, ?_⟩
  · rw [h1]
    exact dictGet_dictSet_self _ _ _
  · rw [h1]
  · intro g2
    have h2 : dictGet (smart_geocode s h (fun _ => none) d cache).cache
        (mkKey s h) = some none := by
      rw [h1]
      exact dictGet_dictSet_self _ _ _
    rw [smart_geocode_hit _ _ _ _ _ _ h2]
    exact ⟨rfl, rfl⟩

/-- Witness for C1 (amended) at street "A", house "1", the zero distance
function and the empty cache. -/
theorem C1_amended_witness :
    dictGet ([] : Cache) (mkKey "A" "1") = none ∧
    (dictGet (smart_geocode "A" "1" (fun _ => none) (fun _ => 0) []).cache
        (mkKey "A" "1") = some none ∧
      (smart_geocode "A" "1" (fun _ => none) (fun _ => 0) []).res = none ∧
      ∀ g2 : String → Option Coord,
        (smart_geocode "A" "1" g2 (fun _ => 0)
          (smart_geocode "A" "1" (fun _ => none) (fun _ => 0) []).cache).calls
          = [] ∧
        (smart_geocode "A" "1" g2 (fun _ => 0)
          (smart_geocode "A" "1" (fun _ => none) (fun _ => 0) []).cache).res
          = none) :=
  ⟨rfl, C1_amended_transient_cached_no_retry "A" "1" (fun _ => 0) [] rfl⟩

/-- C2: a raw geocoded coordinate farther than `MAX_DIST_KM` from the center
is never returned as resolved, never cached as resolved, and never appears in
a record that survives the `dropna` step feeding the renderer.  Stated as the
invariant the code maintains: starting from any cache whose resolved entries
are in range (the empty cache, and every cache the program itself produces,
is such), every resolved result, every resolved cache entry, and every
rendered record is within `MAX_DIST_KM`. -/
theorem C2_out_of_range_never_resolved (g : String → Option Coord)
    (d : Coord → ℚ) (rows : List (String × String)) (cache : Cache)
    (hOK : cacheOK d cache) :
    (∀ s h c, (smart_geocode s h g d cache).res = some c →
      d c ≤ MAX_DIST_KM) ∧
    (∀ s h, cacheOK d (smart_geocode s h g d cache).cache) ∧
    cacheOK d (geocodeRows g d rows cache).2 ∧
    ∀ p ∈ renderedRecords rows (geocodeRows g d rows cache).1,
      d p.2 ≤ MAX_DIST_KM := by
  refine ⟨?_, ?_, ?_, ?_⟩
  · intro s h c hres
    exact smart_geocode_res_ok s h g d cache hOK c hres
  · intro s h
    exact smart_geocode_cache_ok s h g d cache hOK
  · exact (geocodeRows_cache_ok g d rows cache hOK).1
  · exact (geocodeRows_cache_ok g d rows cache hOK).2

/-- Witness for C2: a geocoder that always answers a point 50 km east of the
center (distance function is the first coordinate), one row, empty cache. -/
theorem C2_witness :
    cacheOK (fun c => c.1) ([] : Cache) ∧
    ((∀ s h c,
        (smart_geocode s h (fun _ => some (50, 0)) (fun c => c.1) []).res
          = some c → (fun c : Coord => c.1) c ≤ MAX_DIST_KM) ∧
      (∀ s h, cacheOK (fun c => c.1)
        (smart_geocode s h (fun _ => some (50, 0)) (fun c => c.1) []).cache) ∧
      cacheOK (fun c => c.1)
        (geocodeRows (fun _ => some (50, 0)) (fun c => c.1) [("A", "1")] []).2 ∧
      ∀ p ∈ renderedRecords [("A", "1")]
          (geocodeRows (fun _ => some (50, 0)) (fun c => c.1) [("A", "1")] []).1,
        (fun c : Coord => c.1) p.2 ≤ MAX_DIST_KM) :=
  ⟨cacheOK_nil _,
    C2_out_of_range_never_resolved (fun _ => some (50, 0)) (fun c => c.1)
      [("A", "1")] [] (cacheOK_nil _)⟩

/-- C3: rows with the same cache key cause at most one external geocoder call
per batch, none at all when the key is already in the loaded cache, and all
such rows receive the identical resolution value. -/
theorem C3_at_most_one_lookup_per_key (g : String → Option Coord)
    (d : Coord → ℚ) (rows : List (String × String)) (cache : Cache)
    (k : String) :
    callsForKey k (rows.zip (geocodeRows g d rows cache).1) ≤ 1 ∧
    ((dictGet cache k).isSome →
      callsForKey k (rows.zip (geocodeRows g d rows cache).1) = 0) ∧
    ∀ p ∈ rows.zip (geocodeRows g d rows cache).1,
      ∀ q ∈ rows.zip (geocodeRows g d rows cache).1,
        mkKey p.1.1 p.1.2 = k → mkKey q.1.1 q.1.2 = k → p.2.1 = q.2.1 := by
  obtain ⟨hsome, hnone⟩ := geocodeRows_key_invariant g d k rows cache
  rcases hv : dictGet cache k with _ | v
  · obtain ⟨h1, v0, hall⟩ := hnone hv
    refine ⟨h1, ?_, ?_⟩
    · intro hs
      simp at hs
    · intro p hp q hq hpk hqk
      rw [hall p hp hpk, hall q hq hqk]
  · obtain ⟨h1, hall⟩ := hsome v hv
    refine ⟨by rw [h1]; exact Nat.zero_le 1, fun _ => h1, ?_⟩
    intro p hp q hq hpk hqk
    rw [hall p hp hpk, hall q hq hqk]

/-- Witness for C3: two rows with the same (street, house), empty cache, a
geocoder answering the center itself. -/
theorem C3_witness :
    callsForKey "A_1" ([("A", "1"), ("A", "1")].zip
      (geocodeRows (fun _ => some (0, 0)) (fun _ => 0)
        [("A", "1"), ("A", "1")] []).1) ≤ 1 ∧
    ((dictGet ([] : Cache) "A_1").isSome →
      callsForKey "A_1" ([("A", "1"), ("A", "1")].zip
        (geocodeRows (fun _ => some (0, 0)) (fun _ => 0)
          [("A", "1"), ("A", "1")] []).1) = 0) ∧
    ∀ p ∈ [("A", "1"), ("A", "1")].zip
        (geocodeRows (fun _ => some (0, 0)) (fun _ => 0)
          [("A", "1"), ("A", "1")] []).1,
      ∀ q ∈ [("A", "1"), ("A", "1")].zip
          (geocodeRows (fun _ => some (0, 0)) (fun _ => 0)
            [("A", "1"), ("A", "1")] []).1,
        mkKey p.1.1 p.1.2 = "A_1" → mkKey q.1.1 q.1.2 = "A_1" →
          p.2.1 = q.2.1 :=
  C3_at_most_one_lookup_per_key (fun _ => some (0, 0)) (fun _ => 0)
    [("A", "1"), ("A", "1")] [] "A_1"

/-- C4: the claim says the key normalizer maps inputs differing only in
trailing whitespace to the same key.  The source (line 84) builds the key as
the bare interpolation `f"{street}_{house}"` with no trimming, so a trailing
space changes the key. -/
theorem C4_counterexample_trailing_whitespace :
    mkKey "A " "1" ≠ mkKey "A" "1" := by
  decide

/-- C4 (amended): the key function is total and deterministic (a pure
function of its two inputs) but performs no whitespace normalization: adding
trailing whitespace to the street or to the house always produces a
different key. -/
theorem C4_amended_no_normalization (s h : String) :
    mkKey (s ++ " ") h ≠ mkKey s h ∧ mkKey s (h ++ " ") ≠ mkKey s h := by
  have hsp : (" " : String).length = 1 := rfl
  have hus : ("_" : String).length = 1 := rfl
  constructor
  · intro he
    have hl := congrArg String.length he
    simp only [mkKey, String.length_append, hsp, hus] at hl
    omega
  · intro he
    have hl := congrArg String.length he
    simp only [mkKey, String.length_append, hsp, hus] at hl
    omega

/-- Witness for C4 (amended) at street "A", house "1". -/
theorem C4_amended_witness :
    mkKey ("A" ++ " ") "1" ≠ mkKey "A" "1" ∧
    mkKey "A" ("1" ++ " ") ≠ mkKey "A" "1" :=
  C4_amended_no_normalization "A" "1"

/-- Token of the serialized (pickled) cache stream: pickle writes the dict as
a flat byte stream; we model it at the granularity of one token per atomic
datum (key string, presence tag, coordinate component). -/
inductive PTok where
  | str (s : String)
  | num (q : ℚ)
  | tagNone
  | tagSome
  deriving DecidableEq, Repr

/-- Serialization of one cache entry. -/
def pickleEncodeEntry : String × Option Coord → List PTok
  | (k, none) => [.str k, .tagNone]
  | (k, some (a, b)) => [.str k, .tagSome, .num a, .num b]

/-- Serialization of the whole cache, entry by entry (`pickle.dump`). -/
def pickleEncode : Cache → List PTok
  | [] => []
  | e :: rest => pickleEncodeEntry e ++ pickleEncode rest

/-- Deserialization of a token stream back into a cache (`pickle.load`);
a malformed tail decodes to nothing. -/
def pickleDecode : List PTok → Cache
  | .str k :: .tagNone :: rest => (k, none) :: pickleDecode rest
  | .str k :: .tagSome :: .num a :: .num b :: rest =>
      (k, some (a, b)) :: pickleDecode rest
  | _ => []

/-- Durable storage at the cache path: `none` when no file exists, otherwise
the file's current token content. -/
abbrev FileState := Option (List PTok)

/-- Embedding of `load_cache` (lines 73–77): if the file exists, unpickle it;
otherwise return the empty dict. -/
def load_cache (fs : FileState) : Cache :=
  match fs with
  | none => []
  | some toks => pickleDecode toks

/-- Embedding of `save_cache` (lines 79–81): `open(path, "wb")` then
`pickle.dump(cache, f)` — the file ends up holding the new serialization. -/
def save_cache (cache : Cache) : FileState :=
  some (pickleEncode cache)

/-- Durable states observable if the process crashes during `save_cache`:
before `open` the old content is still there; `open(path, "wb")` truncates
the file to empty; `pickle.dump` then streams the serialization, so each
prefix of the token stream is a possible on-disk state (the full stream being
the final one).  No temporary file is involved in the source. -/
def save_cache_crash_states (cache : Cache) (old : FileState) : List FileState :=
  old :: (List.range ((pickleEncode cache).length + 1)).map
    (fun i => some ((pickleEncode cache).take i))

theorem pickleDecode_pickleEncode (cache : Cache) :
    pickleDecode (pickleEncode cache) = cache := by
  induction cache with
  | nil => rfl
  | cons e rest ih =>
      obtain ⟨k, v⟩ := e
      rcases v with _ | c
      · simp [pickleEncode, pickleEncodeEntry, pickleDecode, ih]
      · obtain ⟨a, b⟩ := c
        simp [pickleEncode, pickleEncodeEntry, pickleDecode, ih]

/-- C5: the claim says a crash during persist leaves either the complete old
store or the complete new store on disk.  The source writes directly to the
target path (truncating `open(path, "wb")` followed by `pickle.dump`), with
no temporary file and no atomic replace: the truncated empty file is an
observable crash state that is neither the old nor the new store. -/
theorem C5_counterexample_partial_write :
    some ([] : List PTok) ∈
      save_cache_crash_states [("b", none)] (save_cache [("a", none)]) ∧
    some ([] : List PTok) ≠ save_cache [("a", none)] ∧
    some ([] : List PTok) ≠ save_cache [("b", none)] := by
  decide

/-- C5 (amended): `save_cache` writes the serialization directly to the
target path with no temporary location; at any interruption point the durable
storage holds either the previous content or some prefix — possibly empty,
possibly partial — of the new store's serialization, so a mid-write crash can
leave a partial store. -/
theorem C5_amended_crash_states_are_prefixes (cache : Cache)
    (old : FileState) :
    ∀ st ∈ save_cache_crash_states cache old,
      st = old ∨
      ∃ i, i ≤ (pickleEncode cache).length ∧
        st = some ((pickleEncode cache).take i) := by
  intro st hst
  rcases List.mem_cons.mp hst with hst | hst
  · exact Or.inl hst
  · obtain ⟨i, hi, hsti⟩ := List.mem_map.mp hst
    have hlt : i < (pickleEncode cache).length + 1 := List.mem_range.mp hi
    exact Or.inr ⟨i, by omega, hsti.symm⟩

/-- Witness for C5 (amended): the truncated state during the write of a
one-entry store over a previously absent file. -/
theorem C5_amended_witness :
    some ([] : List PTok) ∈ save_cache_crash_states [("b", none)] none ∧
    (some ([] : List PTok) = none ∨
      ∃ i, i ≤ (pickleEncode [("b", none)]).length ∧
        some ([] : List PTok) = some ((pickleEncode [("b", none)]).take i)) :=
  ⟨by decide,
    C5_amended_crash_states_are_prefixes [("b", none)] none
      (some []) (by decide)⟩

/-- C9: persisting any store and loading it back yields the same store, and
loading from a location where nothing was ever persisted yields the empty
store rather than an error. -/
theorem C9_persist_load_roundtrip :
    (∀ store : Cache, load_cache (save_cache store) = store) ∧
    load_cache none = [] :=
  ⟨fun store => pickleDecode_pickleEncode store, rfl⟩

/-- A row of the spreadsheet DataFrame, with the five columns the program
uses: "Улица" (street), "Дом" (house), "Всего" (count), "created_at", and
"category".  Cells are dynamically typed. -/
structure Row where
  street : Value
  house : Value
  count : Value
  created_at : Value
  category : Value
  deriving DecidableEq, Repr

abbrev DataFrame := List Row

/-- Line 101: `df = df[df[COL_STREET].notna() & df[COL_HOUSE].notna()]`. -/
def dropMissingAddress (df : DataFrame) : DataFrame :=
  df.filter (fun r =>
    decide (r.street ≠ Value.vNone) && decide (r.house ≠ Value.vNone))

/-- Per-cell `astype(str)`; pandas renders NaN as the string "nan". -/
def cellToStr : Value → Value
  | .vStr s => .vStr s
  | .vInt n => .vStr (toString n)
  | .vTime t => .vStr (toString t)
  | .vNone => .vStr "nan"

/-- Line 104: `df[COL_STREET] = df[COL_STREET].astype(str)`. -/
def setStreetStr (df : DataFrame) : DataFrame :=
  df.map (fun r => { r with street := cellToStr r.street })

/-- Line 105: `df[COL_HOUSE] = df[COL_HOUSE].astype(str)`. -/
def setHouseStr (df : DataFrame) : DataFrame :=
  df.map (fun r => { r with house := cellToStr r.house })

/-- Per-cell `fillna(0)`. -/
def cellFillZero : Value → Value
  | .vNone => .vInt 0
  | v => v

/-- Per-cell `astype(int)`: integers stay, timestamps expose their integer
value, numeric strings parse, anything else raises (modelled as `none`). -/
def cellToInt : Value → Option Int
  | .vInt n => some n
  | .vTime t => some t
  | .vStr s => s.toInt?
  | .vNone => none

/-- Apply a per-row operation that can raise; a raise on any row aborts the
whole column operation (pandas raises out of the vectorized call). -/
def mapRowsOpt (f : Row → Option Row) : DataFrame → Option DataFrame
  | [] => some []
  | r :: rest =>
      match f r with
      | none => none
      | some r2 =>
          match mapRowsOpt f rest with
          | none => none
          | some rest2 => some (r2 :: rest2)

/-- Line 106: `df[COL_COUNT] = df[COL_COUNT].fillna(0).astype(int)`. -/
def setCountInt (df : DataFrame) : Option DataFrame :=
  mapRowsOpt (fun r => (cellToInt (cellFillZero r.count)).map
    (fun n => { r with count := Value.vInt n })) df

/-- Per-cell `pd.to_datetime`: NaN becomes NaT (no raise), a string goes
through the external date parser (raising when it fails, i.e. `none`),
numbers are interpreted as epoch offsets.  The pandas date parser itself is
external; it is the parameter `parse`. -/
def cellToDatetime (parse : String → Option Int) : Value → Option Value
  | .vNone => some .vNone
  | .vStr s => (parse s).map .vTime
  | .vTime t => some (.vTime t)
  | .vInt n => some (.vTime n)

/-- Line 107: `df[COL_DATE] = pd.to_datetime(df[COL_DATE])` (default
`errors="raise"`: an unparseable cell raises out of the whole call). -/
def setDateParsed (parse : String → Option Int) (df : DataFrame) :
    Option DataFrame :=
  mapRowsOpt (fun r => (cellToDatetime parse r.created_at).map
    (fun v => { r with created_at := v })) df

/-- Per-cell `fillna("Не указано")` for the category column. -/
def cellFillCat : Value → Value
  | .vNone => .vStr "Не указано"
  | v => v

/-- Line 108: `df[COL_CAT] = df[COL_CAT].fillna("Не указано")`. -/
def setCategoryFilled (df : DataFrame) : DataFrame :=
  df.map (fun r => { r with category := cellFillCat r.category })

/-- Embedding of `prepare_dataframe` (lines 98–109), value level: copy (no
observable effect on values), drop rows with missing street/house, coerce
street/house to strings, count to an integer with missing → 0, timestamps via
the date parser (raising on an unparseable cell, modelled as `none`), and
fill missing categories. -/
def prepare_dataframe (parse : String → Option Int) (df_raw : DataFrame) :
    Option DataFrame :=
  match setCountInt (setHouseStr (setStreetStr (dropMissingAddress df_raw))) with
  | none => none
  | some df4 =>
      match setDateParsed parse df4 with
      | none => none
      | some df5 => some (setCategoryFilled df5)

theorem mapRowsOpt_none_of_mem (f : Row → Option Row) (df : DataFrame)
    (r : Row) (hr : r ∈ df) (hf : f r = none) : mapRowsOpt f df = none := by
  induction df with
  | nil => cases hr
  | cons hd tl ih =>
      rcases List.mem_cons.mp hr with hr | hr
      · subst hr
        simp only [mapRowsOpt, hf]
      · rcases hfhd : f hd with _ | r2
        · simp only [mapRowsOpt, hfhd]
        · simp only [mapRowsOpt, hfhd, ih hr]

theorem mapRowsOpt_mem_image (f : Row → Option Row) :
    ∀ (df df2 : DataFrame), mapRowsOpt f df = some df2 →
      ∀ r ∈ df, ∃ r2, f r = some r2 ∧ r2 ∈ df2 := by
  intro df
  induction df with
  | nil =>
      intro df2 _ r hr
      cases hr
  | cons hd tl ih =>
      intro df2 hsome r hr
      rcases hfhd : f hd with _ | h2
      · rw [mapRowsOpt, hfhd] at hsome
        cases hsome
      · rcases htl : mapRowsOpt f tl with _ | tl2
        · rw [mapRowsOpt, hfhd, htl] at hsome
          cases hsome
        · rw [mapRowsOpt, hfhd, htl] at hsome
          injection hsome with hdf2
          subst hdf2
          rcases List.mem_cons.mp hr with hr | hr
          · subst hr
            exact ⟨h2, hfhd, List.mem_cons_self _ _⟩
          · obtain ⟨r2, hfr, hr2⟩ := ih tl2 htl r hr
            exact ⟨r2, hfr, List.mem_cons_of_mem _ hr2⟩

theorem mapRowsOpt_mem_rev (f : Row → Option Row) :
    ∀ (df df2 : DataFrame), mapRowsOpt f df = some df2 →
      ∀ r2 ∈ df2, ∃ r ∈ df, f r = some r2 := by
  intro df
  induction df with
  | nil =>
      intro df2 hsome r2 hr2
      rw [mapRowsOpt] at hsome
      injection hsome with hdf2
      subst hdf2
      cases hr2
  | cons hd tl ih =>
      intro df2 hsome r2 hr2
      rcases hfhd : f hd with _ | h2
      · rw [mapRowsOpt, hfhd] at hsome
        cases hsome
      · rcases htl : mapRowsOpt f tl with _ | tl2
        · rw [mapRowsOpt, hfhd, htl] at hsome
          cases hsome
        · rw [mapRowsOpt, hfhd, htl] at hsome
          injection hsome with hdf2
          subst hdf2
          rcases List.mem_cons.mp hr2 with hr2 | hr2
          · subst hr2
            exact ⟨hd, List.mem_cons_self _ _, hfhd⟩
          · obtain ⟨r, hr, hfr⟩ := ih tl2 htl r2 hr2
            exact ⟨r, List.mem_cons_of_mem _ hr, hfr⟩

/-- C6: the claim says a row with an unparseable timestamp is excluded from
the batch with a reported count while the batch continues.  Line 107 calls
`pd.to_datetime` with the default `errors="raise"`, so one unparseable cell
raises and aborts the whole batch: `prepare_dataframe` returns no DataFrame
at all (here: a row that passes the street/house filter but whose timestamp
the parser rejects), instead of a DataFrame with that row excluded. -/
theorem C6_counterexample_unparseable_aborts :
    prepare_dataframe (fun _ => none)
      [⟨.vStr "A", .vStr "1", .vInt 1, .vStr "not-a-date", .vStr "c"⟩]
      = none ∧
    dropMissingAddress
      [⟨.vStr "A", .vStr "1", .vInt 1, .vStr "not-a-date", .vStr "c"⟩]
      = [⟨.vStr "A", .vStr "1", .vInt 1, .vStr "not-a-date", .vStr "c"⟩] := by
  decide

/-- C6 (amended): if any row that survives the missing-street/house filter
has a timestamp cell the date parser cannot convert, `prepare_dataframe`
raises (returns no DataFrame), aborting the whole batch; no row is excluded
with a count. -/
theorem C6_amended_unparseable_aborts_batch (parse : String → Option Int)
    (df : DataFrame) (r : Row) (hr : r ∈ df)
    (hs : r.street ≠ Value.vNone) (hh : r.house ≠ Value.vNone)
    (hdate : cellToDatetime parse r.created_at = none) :
    prepare_dataframe parse df = none := by
  have hr1 : r ∈ dropMissingAddress df :=
    List.mem_filter.mpr ⟨hr, by simp [hs, hh]⟩
  have hr2 : { r with street := cellToStr r.street } ∈
      setStreetStr (dropMissingAddress df) :=
    List.mem_map_of_mem _ hr1
  have hr3 : { r with
      street := cellToStr r.street,
      house := cellToStr r.house } ∈
      setHouseStr (setStreetStr (dropMissingAddress df)) := by
    have := List.mem_map_of_mem
      (fun q => { q with house := cellToStr q.house }) hr2
    exact this
  rcases h4 : setCountInt (setHouseStr (setStreetStr (dropMissingAddress df)))
    with _ | df4
  · simp only [prepare_dataframe, h4]
  · obtain ⟨r4, hfr4, hr4⟩ :=
      mapRowsOpt_mem_image _ _ df4 h4 _ hr3
    obtain ⟨n, _, hr4eq⟩ := Option.map_eq_some'.mp hfr4
    have hdate4 : r4.created_at = r.created_at := by
      rw [← hr4eq]
    have h5 : setDateParsed parse df4 = none := by
      apply mapRowsOpt_none_of_mem _ _ r4 hr4
      rw [hdate4, hdate]
      rfl
    simp only [prepare_dataframe, h4, h5]

/-- Witness for C6 (amended): one row with an address but a timestamp the
parser rejects. -/
theorem C6_amended_witness :
    prepare_dataframe (fun _ => none)
      [⟨.vStr "A", .vStr "1", .vInt 1, .vStr "not-a-date", .vStr "c"⟩]
      = none :=
  C6_amended_unparseable_aborts_batch (fun _ => none) _
    ⟨.vStr "A", .vStr "1", .vInt 1, .vStr "not-a-date", .vStr "c"⟩
    (List.mem_singleton.mpr rfl) (by decide) (by decide) rfl

/-- C7: the claim says the prepared count is always a non-negative integer
(missing → 0).  `fillna(0).astype(int)` never clamps: a negative input count
passes through unchanged, so the output count can be negative. -/
theorem C7_counterexample_negative_count :
    prepare_dataframe (fun _ => some 0)
      [⟨.vStr "A", .vStr "1", .vInt (-1), .vStr "d", .vStr "c"⟩]
      = some [⟨.vStr "A", .vStr "1", .vInt (-1), .vTime 0, .vStr "c"⟩] ∧
    ¬ (0 : Int) ≤ -1 := by
  decide

/-- C7 (amended): whenever `prepare_dataframe` succeeds, every output row's
count is an integer, and a surviving row with a missing count comes out with
count 0; negative input counts are not clamped (see the counterexample). -/
theorem C7_amended_count_integer (parse : String → Option Int)
    (df out : DataFrame) (hout : prepare_dataframe parse df = some out) :
    (∀ r2 ∈ out, ∃ n : Int, r2.count = Value.vInt n) ∧
    (∀ r ∈ df, r.street ≠ Value.vNone → r.house ≠ Value.vNone →
      r.count = Value.vNone → ∃ r2 ∈ out, r2.count = Value.vInt 0) := by
  rcases h4 : setCountInt (setHouseStr (setStreetStr (dropMissingAddress df)))
    with _ | df4
  · simp only [prepare_dataframe, h4] at hout
    exact Option.noConfusion hout
  rcases h5 : setDateParsed parse df4 with _ | df5
  · simp only [prepare_dataframe, h4, h5] at hout
    exact Option.noConfusion hout
  simp only [prepare_dataframe, h4, h5] at hout
  injection hout with hout
  subst hout
  constructor
  · intro r2 hr2
    obtain ⟨r5, hr5, hr2eq⟩ := List.mem_map.mp hr2
    obtain ⟨r4, hr4, hfr5⟩ := mapRowsOpt_mem_rev _ _ df5 h5 r5 hr5
    obtain ⟨v, _, hr5eq⟩ := Option.map_eq_some'.mp hfr5
    obtain ⟨r3, hr3, hfr4⟩ := mapRowsOpt_mem_rev _ _ df4 h4 r4 hr4
    obtain ⟨n, _, hr4eq⟩ := Option.map_eq_some'.mp hfr4
    refine ⟨n, ?_⟩
    rw [← hr2eq, ← hr5eq, ← hr4eq]
  · intro r hr hs hh hcnt
    have hr1 : r ∈ dropMissingAddress df :=
      List.mem_filter.mpr ⟨hr, by simp [hs, hh]⟩
    have hr3 : { r with
        street := cellToStr r.street,
        house := cellToStr r.house } ∈
        setHouseStr (setStreetStr (dropMissingAddress df)) :=
      List.mem_map_of_mem _ (List.mem_map_of_mem _ hr1)
    obtain ⟨r4, hfr4, hr4⟩ := mapRowsOpt_mem_image _ _ df4 h4 _ hr3
    have hr4eq : r4 = { r with
        street := cellToStr r.street,
        house := cellToStr r.house,
        count := Value.vInt 0 } := by
      rw [hcnt] at hfr4
      exact (Option.some.inj hfr4).symm
    obtain ⟨r5, hfr5, hr5⟩ := mapRowsOpt_mem_image _ _ df5 h5 _ hr4
    obtain ⟨v, _, hr5eq⟩ := Option.map_eq_some'.mp hfr5
    refine ⟨{ r5 with category := cellFillCat r5.category },
      List.mem_map_of_mem _ hr5, ?_⟩
    have : r5.count = r4.count := by rw [← hr5eq]
    rw [this, hr4eq]

/-- Witness for C7 (amended): one row with an address and a missing count. -/
theorem C7_amended_witness :
    prepare_dataframe (fun _ => some 0)
      [⟨.vStr "A", .vStr "1", .vNone, .vStr "d", .vNone⟩]
      = some [⟨.vStr "A", .vStr "1", .vInt 0, .vTime 0, .vStr "Не указано"⟩] ∧
    ((∀ r2 ∈ [(⟨.vStr "A", .vStr "1", .vInt 0, .vTime 0,
        .vStr "Не указано"⟩ : Row)], ∃ n : Int, r2.count = Value.vInt n) ∧
      (∀ r ∈ [(⟨.vStr "A", .vStr "1", .vNone, .vStr "d", .vNone⟩ : Row)],
        r.street ≠ Value.vNone → r.house ≠ Value.vNone →
        r.count = Value.vNone →
        ∃ r2 ∈ [(⟨.vStr "A", .vStr "1", .vInt 0, .vTime 0,
          .vStr "Не указано"⟩ : Row)], r2.count = Value.vInt 0)) :=
  ⟨by decide,
    C7_amended_count_integer (fun _ => some 0)
      [⟨.vStr "A", .vStr "1", .vNone, .vStr "d", .vNone⟩]
      [⟨.vStr "A", .vStr "1", .vInt 0, .vTime 0, .vStr "Не указано"⟩]
      (by decide)⟩

/-- Midnight at the start of day `d`, in seconds; `pd.Timestamp(date)`.
Dates are modelled as integer day numbers, timestamps as integer seconds. -/
def tsOfDate (d : Int) : Int := 86400 * d

/-- Comparison `df[COL_DATE] >= ts` on one cell; NaT compares false. -/
def cellGeTs (v : Value) (t : Int) : Bool :=
  match v with
  | .vTime x => decide (t ≤ x)
  | _ => false

/-- Comparison `df[COL_DATE] <= ts` on one cell; NaT compares false. -/
def cellLeTs (v : Value) (t : Int) : Bool :=
  match v with
  | .vTime x => decide (x ≤ t)
  | _ => false

/-- One cell of `df[COL_CAT].isin(cats)`. -/
def catIn (cats : List String) (v : Value) : Bool :=
  match v with
  | .vStr s => decide (s ∈ cats)
  | _ => false

/-- Category part of the mask: `if cats: mask &= df[COL_CAT].isin(cats)` —
Python truthiness applies the restriction only for a non-empty list. -/
def catMask (cats : Option (List String)) (v : Value) : Bool :=
  match cats with
  | some (c :: cs) => catIn (c :: cs) v
  | _ => true

/-- Embedding of `filter_df` (lines 113–117): keep rows whose timestamp lies
between midnight of `date_from` and `date_to + 1 day - 1 second`, and whose
category is in `cats` when a non-empty category list is given
(`reset_index(drop=True)` has no effect in the list model). -/
def filter_df (df : DataFrame) (date_from date_to : Int)
    (cats : Option (List String)) : DataFrame :=
  df.filter (fun r =>
    cellGeTs r.created_at (tsOfDate date_from) &&
    cellLeTs r.created_at (tsOfDate date_to + 86400 - 1) &&
    catMask cats r.category)

/-- C8: the date filter is inclusive on both boundaries: for any record set
and any `date_from ≤ date_to`, a record timestamped 23:59:59 on `date_to`
(that passes the category mask) is retained, and a record timestamped
00:00:00 on the day after `date_to` is never retained. -/
theorem C8_filter_inclusive_boundaries (df : DataFrame)
    (date_from date_to : Int) (cats : Option (List String)) (r rEx : Row)
    (hrange : date_from ≤ date_to) (hr : r ∈ df)
    (hts : r.created_at = Value.vTime (tsOfDate date_to + 86399))
    (hcat : catMask cats r.category = true)
    (htsEx : rEx.created_at = Value.vTime (tsOfDate (date_to + 1))) :
    r ∈ filter_df df date_from date_to cats ∧
    rEx ∉ filter_df df date_from date_to cats := by
  constructor
  · apply List.mem_filter.mpr
    refine ⟨hr, ?_⟩
    simp only [hts, cellGeTs, cellLeTs, tsOfDate, hcat, Bool.and_true,
      Bool.and_eq_true, decide_eq_true_eq]
    omega
  · intro hmem
    have hmask := (List.mem_filter.mp hmem).2
    simp only [htsEx, cellGeTs, cellLeTs, tsOfDate, Bool.and_eq_true,
      decide_eq_true_eq] at hmask
    omega

/-- Witness for C8: a two-row frame around the `date_to = 0` boundary with no
category restriction. -/
theorem C8_witness :
    (⟨.vStr "A", .vStr "1", .vInt 1, .vTime 86399, .vStr "c"⟩ : Row) ∈
      filter_df
        [⟨.vStr "A", .vStr "1", .vInt 1, .vTime 86399, .vStr "c"⟩,
         ⟨.vStr "B", .vStr "2", .vInt 1, .vTime 86400, .vStr "c"⟩]
        0 0 none ∧
    (⟨.vStr "B", .vStr "2", .vInt 1, .vTime 86400, .vStr "c"⟩ : Row) ∉
      filter_df
        [⟨.vStr "A", .vStr "1", .vInt 1, .vTime 86399, .vStr "c"⟩,
         ⟨.vStr "B", .vStr "2", .vInt 1, .vTime 86400, .vStr "c"⟩]
        0 0 none :=
  C8_filter_inclusive_boundaries _ 0 0 none
    ⟨.vStr "A", .vStr "1", .vInt 1, .vTime 86399, .vStr "c"⟩
    ⟨.vStr "B", .vStr "2", .vInt 1, .vTime 86400, .vStr "c"⟩
    (by decide) (by decide) (by decide) (by decide) (by decide)

/-- A heap of DataFrame objects, indexed by allocation order; models Python
object identity so that in-place column mutation is observable. -/
abbrev Heap := List DataFrame

/-- Dereference a DataFrame object. -/
def heapGet (heap : Heap) (ref : Nat) : DataFrame := heap.getD ref []

/-- Mutate a DataFrame object in place. -/
def heapSet (heap : Heap) (ref : Nat) (df : DataFrame) : Heap :=
  heap.set ref df

/-- Embedding of `prepare_dataframe` (lines 98–109) at the level of object
mutation: `df = df_raw.copy()` allocates a fresh object (index
`heap.length`); `df = df[mask]` allocates again (index `heap.length + 1`);
the four column assignments mutate that second object in place; a pandas
raise (from `astype(int)` or `to_datetime`) aborts with the heap as mutated
so far and no result reference.  The argument object `raw` is never
written. -/
def prepare_dataframe_heap (parse : String → Option Int) (heap : Heap)
    (raw : Nat) : Heap × Option Nat :=
  let h1 := heap ++ [heapGet heap raw]
  let h2 := h1 ++ [dropMissingAddress (heapGet h1 heap.length)]
  let r2 := heap.length + 1
  let h3 := heapSet h2 r2 (setStreetStr (heapGet h2 r2))
  let h4 := heapSet h3 r2 (setHouseStr (heapGet h3 r2))
  match setCountInt (heapGet h4 r2) with
  | none => (h4, none)
  | some d5 =>
      let h5 := heapSet h4 r2 d5
      match setDateParsed parse (heapGet h5 r2) with
      | none => (h5, none)
      | some d6 =>
          let h6 := heapSet h5 r2 d6
          (heapSet h6 r2 (setCategoryFilled (heapGet h6 r2)), some r2)

theorem getD_set_ne {α : Type} (l : List α) (i j : Nat) (a dflt : α)
    (hij : i ≠ j) : (l.set i a).getD j dflt = l.getD j dflt := by
  induction l generalizing i j with
  | nil => rfl
  | cons hd tl ih =>
      cases i with
      | zero =>
          cases j with
          | zero => exact absurd rfl hij
          | succ j => simp [List.set]
      | succ i =>
          cases j with
          | zero => simp [List.set]
          | succ j =>
              simp only [List.set, List.getD_cons_succ]
              exact ih i j (fun he => hij (congrArg Nat.succ he))

theorem heapGet_heapSet_ne (heap : Heap) (i j : Nat) (df : DataFrame)
    (hij : i ≠ j) : heapGet (heapSet heap i df) j = heapGet heap j :=
  getD_set_ne heap i j df [] hij

theorem heapGet_alloc (heap : Heap) (df : DataFrame) (raw : Nat)
    (hraw : raw < heap.length) :
    heapGet (heap ++ [df]) raw = heapGet heap raw :=
  List.getD_append _ _ _ _ hraw

/-- C10: the preparer never mutates its argument: every write lands on the
freshly allocated copy (or on the frame derived from it), so the raw
DataFrame object is identical before and after the call, whether the call
succeeds or raises. -/
theorem C10_prepare_leaves_raw_unchanged (parse : String → Option Int)
    (heap : Heap) (raw : Nat) (hraw : raw < heap.length) :
    heapGet (prepare_dataframe_heap parse heap raw).1 raw = heapGet heap raw := by
  have hne : heap.length + 1 ≠ raw := by omega
  have halloc : ∀ d1 d2 : DataFrame,
      heapGet ((heap ++ [d1]) ++ [d2]) raw = heapGet heap raw := by
    intro d1 d2
    rw [heapGet_alloc _ _ _ (by simp; omega), heapGet_alloc _ _ _ hraw]
  simp only [prepare_dataframe_heap]
  split
  · rw [heapGet_heapSet_ne _ _ _ _ hne, heapGet_heapSet_ne _ _ _ _ hne,
      halloc]
  · split
    · rw [heapGet_heapSet_ne _ _ _ _ hne, heapGet_heapSet_ne _ _ _ _ hne,
        heapGet_heapSet_ne _ _ _ _ hne, halloc]
    · rw [heapGet_heapSet_ne _ _ _ _ hne, heapGet_heapSet_ne _ _ _ _ hne,
        heapGet_heapSet_ne _ _ _ _ hne, heapGet_heapSet_ne _ _ _ _ hne,
        heapGet_heapSet_ne _ _ _ _ hne, halloc]

/-- Witness for C10: a one-object heap holding a one-row frame. -/
theorem C10_witness :
    heapGet (prepare_dataframe_heap (fun _ => some 0)
      [[⟨.vStr "A", .vStr "1", .vInt 1, .vStr "d", .vStr "c"⟩]] 0).1 0 =
    heapGet [[⟨.vStr "A", .vStr "1", .vInt 1, .vStr "d", .vStr "c"⟩]] 0 :=
  C10_prepare_leaves_raw_unchanged (fun _ => some 0)
    [[⟨.vStr "A", .vStr "1", .vInt 1, .vStr "d", .vStr "c"⟩]] 0 (by decide)

end ZvksHeatmap
